import Mathlib

/-!
# SDLC Requirement-Traceability Platform — verification development

Shallow embedding of the core of the repository
(`backend/src/middleware/auth.middleware.ts`, `backend/src/routes/traceability.routes.ts`,
`backend/src/services/auditlog.service.ts`, `backend/src/services/integration.service.ts`,
`backend/src/models/requirement.model.ts`) together with theorems settling the
frozen claims about it.

Modelling conventions:
* TypeScript strings are Lean `String`; JS `===` on strings is `==`.
* `undefined`/missing values are `Option`; JS `x || y` fallbacks are modelled
  explicitly (note the empty string is falsy).
* Asynchronous upstream calls that may reject are functions into `Except String _`;
  `Promise.all` over a list is sequential all-or-nothing aggregation (`fetchAll`),
  which has the same value semantics as the fan-out/fan-in in the source.
* Database-assigned `Date` columns are modelled as epoch milliseconds (`Nat`);
  `Date.toISOString` is modelled as the decimal rendering of that number, which
  is injective — the only property the export claims use.
* Winston logger output is modelled as a list of diagnostic strings.
-/

/-! ## Roles and the permission policy (auth.middleware.ts, lines 7–24)

`UserRole` is a string enum in the source; at runtime `user.role` is a string,
and the lookup `rolePermissions[user.role]` can miss (yielding `undefined`),
so roles are modelled as strings and the table as a partial map. -/
/-- The permission table `rolePermissions` of auth.middleware.ts.
Returns `none` exactly when the role string is outside the closed enum
(the source then falls back to `[]` via `|| []`). -/
def rolePermissions : String → Option (List String)
  | "admin" => some ["*"]
  | "compliance" => some ["view", "export", "audit"]
  | "stakeholder" => some ["view", "report"]
  | "developer" => some ["view", "link", "report"]
  | "tester" => some ["view", "report", "flag"]
  | "viewer" => some ["view"]
  | _ => none

/-- Lookup `rolePermissions[user.role] || []` — the silent empty fallthrough for an
unrecognized role. -/
def permissionsOf (role : String) : List String :=
  (rolePermissions role).getD []

/-- An authenticated user as attached by Passport.js: `{ username, role }`. -/
structure User where
  username : String
  role : String
deriving Repr, DecidableEq

/-- Outcome of the RBAC decision inside `authorize` (auth.middleware.ts,
lines 46–81): `next()` (allow), the 401 branch (no user), or the 403 branch
(insufficient permissions, reporting the required tokens). -/
inductive AuthDecision where
  | allow
  | denyUnauthenticated
  | denyInsufficient (required : List String)
deriving Repr, DecidableEq

/-- The pure decision core of `authorize(requiredPermissions)`:
no user ⇒ 401; a permission set containing the wildcard ⇒ allow;
otherwise allow iff every required token is present. -/
def authorizeDecision (user? : Option User) (required : List String) : AuthDecision :=
  match user? with
  | none => .denyUnauthenticated
  | some u =>
    let permissions := permissionsOf u.role
    if permissions.contains "*" then .allow
    else if required.all (fun perm => permissions.contains perm) then .allow
    else .denyInsufficient required

/-! ## Audit logging (auditlog.service.ts, lines 12–141)

The `audit_logs` row: `id` and `timestamp` are assigned by the database on
save (`PrimaryGeneratedColumn`, `CreateDateColumn`); the model assigns the
row position as `id` and takes the save instant as a parameter. -/
/-- One `audit_logs` row. -/
structure AuditLog where
  id : String
  action : String
  username : Option String
  role : Option String
  details : Option String
  ip : Option String
  timestamp : Nat
deriving Repr, DecidableEq

/-- State touched by the audit service: the durable `audit_logs` table and
the Winston diagnostic stream (one string per emitted log line). -/
structure AuditState where
  stored : List AuditLog
  diag : List String
deriving Repr, DecidableEq

/-- Outcome of one attempted `auditRepo.save` (the storage collaborator may
reject). -/
inductive SaveOutcome where
  | ok
  | err (msg : String)
deriving Repr, DecidableEq

/-- Model of `auditRepo.save({action, username, role, details, ip})`: on success the
database appends a row, assigning `id` and `timestamp`; on storage failure
the promise rejects. -/
def saveAudit (outcome : SaveOutcome) (now : Nat) (action : String)
    (username role details ip : Option String) (st : AuditState) :
    Except String AuditState :=
  match outcome with
  | .ok => .ok { st with stored := st.stored ++
      [{ id := toString st.stored.length, action := action, username := username,
         role := role, details := details, ip := ip, timestamp := now }] }
  | .err m => .error m

/-- Model of `logAccess(user, action, details, req?)`: try { save; logger.info }
catch { logger.error } — the catch swallows any storage error, so the
function always returns normally. `details` arrives already stringified. -/
def logAccess (outcome : SaveOutcome) (now : Nat) (user : Option User)
    (action : String) (details : Option String) (ip : Option String)
    (st : AuditState) : AuditState :=
  match saveAudit outcome now action (user.map User.username) (user.map User.role)
      details ip st with
  | .ok st1 => { st1 with diag := st1.diag ++ ["info: AuditLog: Access - " ++ action] }
  | .error _ => { st with diag := st.diag ++ ["error: AuditLogService.logAccess error"] }

/-- Model of `logModification(user, action, details, req?)` — same body as `logAccess`
with a Modification info line. -/
def logModification (outcome : SaveOutcome) (now : Nat) (user : Option User)
    (action : String) (details : Option String) (ip : Option String)
    (st : AuditState) : AuditState :=
  match saveAudit outcome now action (user.map User.username) (user.map User.role)
      details ip st with
  | .ok st1 => { st1 with diag := st1.diag ++ ["info: AuditLog: Modification - " ++ action] }
  | .error _ => { st with diag := st.diag ++ ["error: AuditLogService.logModification error"] }

/-- Model of `logUnauthorizedAccess(ip, url, username?, role?)`: saves an
`UNAUTHORIZED_ACCESS` row with `details = JSON.stringify({url})` (modelled as
the serialized string), then warns; a storage error is caught and only
logged. -/
def logUnauthorizedAccess (outcome : SaveOutcome) (now : Nat) (ip url : String)
    (username role : Option String) (st : AuditState) : AuditState :=
  match saveAudit outcome now "UNAUTHORIZED_ACCESS" username role
      (some ("url=" ++ url)) (some ip) st with
  | .ok st1 => { st1 with diag := st1.diag ++ ["warn: AuditLog: Unauthorized access attempt"] }
  | .error _ =>
      { st with diag := st.diag ++ ["error: AuditLogService.logUnauthorizedAccess error"] }

/-! ## Requirement records and artifact linking (requirement.model.ts;
traceability.routes.ts, lines 213–259)

`createdAt`/`updatedAt` are database-managed timestamp columns
(`CreateDateColumn`/`UpdateDateColumn`, written by the persistence
collaborator on save) and are not part of what the route handlers read or
write, so they are omitted from the record model. -/
/-- The `requirements` entity as the handlers see it. The five identifier
lists are nullable columns (`simple-array`, nullable). -/
structure Requirement where
  id : String
  title : String
  description : Option String
  priority : Option String
  status : String
  userStoryIds : Option (List String)
  taskIds : Option (List String)
  testCaseIds : Option (List String)
  codeCommitIds : Option (List String)
  deploymentIds : Option (List String)
  hasFailedTests : Bool
  hasDeploymentRollback : Bool
  createdBy : String
  updatedBy : Option String
deriving Repr, DecidableEq

/-- Construction of a JavaScript `Set` from a list: walk the list once,
keeping an element iff it has not been seen before (`seen` is the set built
so far, in insertion order). -/
def dedupFirstAux (seen : List String) : List String → List String
  | [] => []
  | x :: xs =>
      if seen.contains x then dedupFirstAux seen xs
      else x :: dedupFirstAux (seen ++ [x]) xs

/-- Model of `Array.from(new Set(l))`: JavaScript `Set` iteration order is insertion
order with only the first occurrence of each element kept. -/
def dedupFirst (l : List String) : List String :=
  dedupFirstAux [] l

/-- Model of `Array.from(new Set([...(existing || []), ...incoming]))` — the merge
performed per supplied kind in the link handler. -/
def mergeIds (existing : Option (List String)) (incoming : List String) : List String :=
  dedupFirst (existing.getD [] ++ incoming)

/-- Model of `req.user?.username || 'system'` (note `||`: an empty username is falsy
and also falls back to "system"). -/
def usernameOrSystem (user : Option User) : String :=
  match user with
  | some u => if u.username = "" then "system" else u.username
  | none => "system"

/-- Request body of POST `/requirement/:id/link`; a field is `none` when
absent from the JSON body (JS: `if (userStoryIds)` skips the merge only for
missing/falsy fields — a supplied empty array is truthy and still merges). -/
structure LinkBody where
  userStoryIds : Option (List String)
  taskIds : Option (List String)
  testCaseIds : Option (List String)
  codeCommitIds : Option (List String)
  deploymentIds : Option (List String)
deriving Repr, DecidableEq

/-- The five conditional merge-and-deduplicate assignments of the link
handler (lines 225–239). -/
def applyLinks (r : Requirement) (body : LinkBody) : Requirement :=
  let r := match body.userStoryIds with
    | some ids => { r with userStoryIds := some (mergeIds r.userStoryIds ids) }
    | none => r
  let r := match body.taskIds with
    | some ids => { r with taskIds := some (mergeIds r.taskIds ids) }
    | none => r
  let r := match body.testCaseIds with
    | some ids => { r with testCaseIds := some (mergeIds r.testCaseIds ids) }
    | none => r
  let r := match body.codeCommitIds with
    | some ids => { r with codeCommitIds := some (mergeIds r.codeCommitIds ids) }
    | none => r
  match body.deploymentIds with
    | some ids => { r with deploymentIds := some (mergeIds r.deploymentIds ids) }
    | none => r

/-- HTTP statuses the modelled routes produce. -/
inductive HttpResult where
  | ok200
  | unauthorized401
  | forbidden403
  | notFound404
deriving Repr, DecidableEq

/-- Result of one link request: response status, the record passed to
`requirementRepo.save` (if any), and the audit state afterwards. -/
structure LinkResult where
  http : HttpResult
  saved : Option Requirement
  audit : AuditState
deriving Repr, DecidableEq

/-- Handler of POST `/requirement/:id/link` (lines 213–259): missing
requirement ⇒ 404 after a not-found modification audit; otherwise merge the
supplied kinds, stamp `updatedBy`, save, audit the modification, 200.
The handler itself performs no permission check. -/
def linkHandler (outcome : SaveOutcome) (now : Nat) (user : Option User)
    (reqId : String) (reqmt : Option Requirement) (body : LinkBody)
    (st : AuditState) : LinkResult :=
  match reqmt with
  | none =>
    { http := .notFound404, saved := none,
      audit := logModification outcome now user "LINK_ARTIFACTS_REQUIREMENT_NOT_FOUND"
        (some ("id=" ++ reqId)) none st }
  | some r =>
    let r1 := { applyLinks r body with updatedBy := some (usernameOrSystem user) }
    { http := .ok200, saved := some r1,
      audit := logModification outcome now user "LINK_ARTIFACTS_TO_REQUIREMENT"
        (some ("id=" ++ reqId)) none st }

/-- The deployed middleware chain for `/api/traceability` (app.ts line 79):
`authMiddleware` runs `ensureAuthenticated` and then — "By default, allow
all authenticated users" — calls `next()` straight into the router. No
`authorize([...])` gate is attached to this chain. An unauthenticated
request gets 401 plus an unauthorized-access audit entry without username. -/
def linkEndpoint (outcome : SaveOutcome) (now : Nat) (user : Option User)
    (ip url reqId : String) (reqmt : Option Requirement) (body : LinkBody)
    (st : AuditState) : LinkResult :=
  match user with
  | none =>
    { http := .unauthorized401, saved := none,
      audit := logUnauthorizedAccess outcome now ip url none none st }
  | some u => linkHandler outcome now (some u) reqId reqmt body st

/-! ## Claim C1 -/
/-- Concrete caller for the C1 failing input. -/
def viewerUser : User := ⟨"vera", "viewer"⟩

/-- Concrete stored requirement for the C1 failing input. -/
def reqR1 : Requirement :=
  { id := "r-1", title := "Login works", description := none, priority := none,
    status := "Draft", userStoryIds := some ["us-0"], taskIds := none,
    testCaseIds := none, codeCommitIds := none, deploymentIds := none,
    hasFailedTests := false, hasDeploymentRollback := false,
    createdBy := "carol", updatedBy := none }

/-- Concrete link body for the C1 failing input. -/
def linkBodyUs1 : LinkBody :=
  { userStoryIds := some ["us-1"], taskIds := none, testCaseIds := none,
    codeCommitIds := none, deploymentIds := none }

/-! ## Flag updates (traceability.routes.ts, lines 308–340) -/
/-- PATCH `/requirement/:id/flags` mutation: each flag is assigned only when
the body supplied a boolean for it (`typeof x === 'boolean'`; a missing or
non-boolean value leaves the stored flag untouched), then `updatedBy` is
stamped. -/
def updateFlags (r : Requirement) (failedFlag rollbackFlag : Option Bool)
    (user : Option User) : Requirement :=
  let r1 := match failedFlag with
    | some b => { r with hasFailedTests := b }
    | none => r
  let r2 := match rollbackFlag with
    | some b => { r1 with hasDeploymentRollback := b }
    | none => r1
  { r2 with updatedBy := some (usernameOrSystem user) }

/-! ## Integration results used by the report
(integration.service.ts, lines 349–395; traceability.routes.ts, lines 266–301) -/
/-- One normalized test result as `getTestResults` returns it (`status` is
"failed" or "passed"; the placeholder integration draws it at random, so it
is an input here). `executedAt` is modelled as milliseconds. -/
structure TestResult where
  id : String
  status : String
  executedAt : Nat
deriving Repr, DecidableEq

/-- Raw Jenkins build response fields used by the service
(`res.data.result`, `res.data.timestamp`). -/
structure JenkinsBuild where
  result : String
  timestamp : Nat
deriving Repr, DecidableEq

/-- One normalized deployment-status record. -/
structure DeploymentStatus where
  id : String
  status : String
  timestamp : Nat
  url : String
deriving Repr, DecidableEq

/-- Per-build normalization in `getDeploymentStatus`:
`status = res.data.result === 'FAILURE' ? 'rollback' : res.data.result`. -/
def deploymentStatusOf (jenkinsBaseUrl jobName id : String) (b : JenkinsBuild) :
    DeploymentStatus :=
  { id := id,
    status := if b.result == "FAILURE" then "rollback" else b.result,
    timestamp := b.timestamp,
    url := jenkinsBaseUrl ++ "/job/" ++ jobName ++ "/" ++ id ++ "/" }

/-- Model of `Promise.all` over per-identifier fetches: the aggregate succeeds with
all results in order, or rejects with the first failure. -/
def fetchAll {α β : Type} (f : α → Except String β) : List α → Except String (List β)
  | [] => .ok []
  | x :: xs =>
    match f x with
    | .error e => .error e
    | .ok b =>
      match fetchAll f xs with
      | .error e => .error e
      | .ok bs => .ok (b :: bs)

/-- Model of `getDeploymentStatus(ids)`: empty input short-circuits; otherwise fan
out to Jenkins per id, normalize each build
(`{id, status: result === 'FAILURE' ? 'rollback' : result, ...}`), and on
any failure anywhere the catch logs and returns the empty list. -/
def getDeploymentStatus (jenkinsBaseUrl jobName : String)
    (fetchBuild : String → Except String JenkinsBuild) (ids : List String) :
    List DeploymentStatus :=
  if ids.isEmpty then []
  else
    match fetchAll (fun id =>
        match fetchBuild id with
        | .error e => .error e
        | .ok b => .ok (deploymentStatusOf jenkinsBaseUrl jobName id b)) ids with
    | .ok results => results
    | .error _ => []

/-- One row of the `/report` response (lines 281–290): flags are the stored
flag OR-ed with evidence in the freshly fetched data; the requirement itself
is only read — `/report` never writes back. -/
structure ReportRow where
  id : String
  title : String
  status : String
  hasFailedTests : Bool
  hasDeploymentRollback : Bool
  testResults : List TestResult
  deploymentStatus : List DeploymentStatus
deriving Repr, DecidableEq

/-- The row computed for one requirement from the fetched test results and
deployment statuses. -/
def reportRow (r : Requirement) (testResults : List TestResult)
    (deploymentStatus : List DeploymentStatus) : ReportRow :=
  { id := r.id, title := r.title, status := r.status,
    hasFailedTests := r.hasFailedTests || testResults.any (fun tr => tr.status == "failed"),
    hasDeploymentRollback :=
      r.hasDeploymentRollback || deploymentStatus.any (fun ds => ds.status == "rollback"),
    testResults := testResults, deploymentStatus := deploymentStatus }

/-! ## Claim C3 (corrected) -/
/-- Concrete requirement for the C3 counterexample: stored flags false, one
linked test case. -/
def reqT1 : Requirement :=
  { id := "r-2", title := "Checkout", description := none, priority := none,
    status := "Approved", userStoryIds := none, taskIds := none,
    testCaseIds := some ["t1"], codeCommitIds := none, deploymentIds := none,
    hasFailedTests := false, hasDeploymentRollback := false,
    createdBy := "carol", updatedBy := none }

/-! ## Claim C4 (corrected) -/
/-- Concrete fetcher for the C4 counterexample: Jenkins reports the build
as ABORTED — an outcome that is not the success token. -/
def abortedFetch : String → Except String JenkinsBuild :=
  fun _ => .ok ⟨"ABORTED", 5⟩

/-! ## Artifact aggregation for the enriched view
(integration.service.ts, lines 215–347; traceability.routes.ts, lines 114–156)

Each per-identifier upstream GET is a function of the identifier into
`Except` (the HTTP client may reject); one fetch function per upstream
system, as in the source (`jiraClient` serves both user stories and tasks,
`githubClient` commits, `jenkinsClient` deployments). -/
/-- Fields of a Jira issue response the service reads
(`res.data.id/key/fields.summary/fields.status?.name/fields.assignee?.displayName`). -/
structure JiraIssue where
  id : String
  key : String
  summary : String
  statusName : Option String
  assigneeName : Option String
deriving Repr, DecidableEq

/-- Normalized user story / task shape. -/
structure StoryArtifact where
  id : String
  key : String
  summary : String
  status : Option String
  assignee : Option String
  url : String
deriving Repr, DecidableEq

/-- Per-issue normalization shared by `getUserStories` and `getTasks`. -/
def normalizeIssue (jiraBaseUrl : String) (iss : JiraIssue) : StoryArtifact :=
  { id := iss.id, key := iss.key, summary := iss.summary,
    status := iss.statusName, assignee := iss.assigneeName,
    url := jiraBaseUrl ++ "/browse/" ++ iss.key }

/-- Model of `getUserStories(ids)`: empty short-circuit, fan-out over Jira, and a
catch that logs and returns the empty list on any failure; the second
component is the diagnostic output of this call. -/
def getUserStories (jiraBaseUrl : String) (fetchIssue : String → Except String JiraIssue)
    (ids : List String) : List StoryArtifact × List String :=
  if ids.isEmpty then ([], [])
  else
    match fetchAll (fun id =>
        match fetchIssue id with
        | .error e => .error e
        | .ok iss => .ok (normalizeIssue jiraBaseUrl iss)) ids with
    | .ok results => (results, [])
    | .error _ => ([], ["error: IntegrationService.getUserStories error"])

/-- Model of `getTasks(ids)` — same body as `getUserStories` against the same Jira
client. -/
def getTasks (jiraBaseUrl : String) (fetchIssue : String → Except String JiraIssue)
    (ids : List String) : List StoryArtifact × List String :=
  if ids.isEmpty then ([], [])
  else
    match fetchAll (fun id =>
        match fetchIssue id with
        | .error e => .error e
        | .ok iss => .ok (normalizeIssue jiraBaseUrl iss)) ids with
    | .ok results => (results, [])
    | .error _ => ([], ["error: IntegrationService.getTasks error"])

/-- Normalized test-case shape (the placeholder integration). -/
structure TestCaseArtifact where
  id : String
  name : String
  status : String
  url : String
deriving Repr, DecidableEq

/-- Model of `getTestCases(ids)`: placeholder mock — no outbound call, total. -/
def getTestCases (ids : List String) : List TestCaseArtifact :=
  if ids.isEmpty then []
  else ids.map (fun id => { id := id, name := "Test Case " ++ id, status := "unknown", url := "" })

/-- Fields of a GitHub commit response the service reads. -/
structure GitHubCommit where
  sha : String
  authorName : String
  message : String
  date : String
  htmlUrl : String
deriving Repr, DecidableEq

/-- Normalized commit shape. -/
structure CommitArtifact where
  sha : String
  author : String
  message : String
  date : String
  url : String
deriving Repr, DecidableEq

/-- Model of `getCodeCommits(hashes)`: fan-out over GitHub with the same
all-or-nothing catch. -/
def getCodeCommits (fetchCommit : String → Except String GitHubCommit)
    (hashes : List String) : List CommitArtifact × List String :=
  if hashes.isEmpty then ([], [])
  else
    match fetchAll (fun h =>
        match fetchCommit h with
        | .error e => .error e
        | .ok c => .ok { sha := c.sha, author := c.authorName, message := c.message,
                         date := c.date, url := c.htmlUrl : CommitArtifact }) hashes with
    | .ok results => (results, [])
    | .error _ => ([], ["error: IntegrationService.getCodeCommits error"])

/-- Model of `getDeployments(ids)`: fan-out over Jenkins; `status` is the raw
`res.data.result` (no rollback normalization here — that is only in
`getDeploymentStatus`). -/
def getDeployments (jenkinsBaseUrl jobName : String)
    (fetchBuild : String → Except String JenkinsBuild) (ids : List String) :
    List DeploymentStatus × List String :=
  if ids.isEmpty then ([], [])
  else
    match fetchAll (fun id =>
        match fetchBuild id with
        | .error e => .error e
        | .ok b => .ok { id := id, status := b.result, timestamp := b.timestamp,
                         url := jenkinsBaseUrl ++ "/job/" ++ jobName ++ "/" ++ id ++ "/"
                         : DeploymentStatus }) ids with
    | .ok results => (results, [])
    | .error _ => ([], ["error: IntegrationService.getDeployments error"])

/-- External collaborators of the aggregator: per-system configuration and
one per-identifier fetch function per upstream client. -/
structure Sources where
  jiraBaseUrl : String
  jenkinsBaseUrl : String
  jobName : String
  fetchIssue : String → Except String JiraIssue
  fetchCommit : String → Except String GitHubCommit
  fetchBuild : String → Except String JenkinsBuild

/-- One row of the matrix: the requirement spread together with the five
enriched lists; `diag` collects the diagnostic lines of the five service
calls. -/
structure EnrichedRequirement where
  requirement : Requirement
  userStories : List StoryArtifact
  tasks : List StoryArtifact
  testCases : List TestCaseArtifact
  codeCommits : List CommitArtifact
  deployments : List DeploymentStatus
  diag : List String

/-- The per-requirement enrichment of GET `/matrix` (lines 120–147):
each kind is fetched only when its identifier list is present and non-empty
(`reqmt.xIds?.length ? await ... : []`). -/
def enrichRequirement (s : Sources) (r : Requirement) : EnrichedRequirement :=
  let us := match r.userStoryIds with
    | some ids => if ids.isEmpty then ([], [])
                  else getUserStories s.jiraBaseUrl s.fetchIssue ids
    | none => ([], [])
  let tk := match r.taskIds with
    | some ids => if ids.isEmpty then ([], [])
                  else getTasks s.jiraBaseUrl s.fetchIssue ids
    | none => ([], [])
  let tc := match r.testCaseIds with
    | some ids => if ids.isEmpty then [] else getTestCases ids
    | none => []
  let cc := match r.codeCommitIds with
    | some ids => if ids.isEmpty then ([], [])
                  else getCodeCommits s.fetchCommit ids
    | none => ([], [])
  let dp := match r.deploymentIds with
    | some ids => if ids.isEmpty then ([], [])
                  else getDeployments s.jenkinsBaseUrl s.jobName s.fetchBuild ids
    | none => ([], [])
  { requirement := r, userStories := us.1, tasks := tk.1, testCases := tc,
    codeCommits := cc.1, deployments := dp.1,
    diag := us.2 ++ tk.2 ++ cc.2 ++ dp.2 }

/-! ## Audit export (auditlog.service.ts, lines 148–172) -/
/-- Ordering relation "newer first": the `order: { timestamp: 'DESC' }` ordering of
`auditRepo.find`. -/
def auditDescOrder (a b : AuditLog) : Prop := b.timestamp ≤ a.timestamp

instance : DecidableRel auditDescOrder := fun a b => Nat.decLe b.timestamp a.timestamp

instance : IsTotal AuditLog auditDescOrder := ⟨fun a b => Nat.le_total b.timestamp a.timestamp⟩

instance : IsTrans AuditLog auditDescOrder :=
  ⟨fun _ _ _ hab hbc => Nat.le_trans hbc hab⟩

/-- The database honoring `order: { timestamp: 'DESC' }`: the stored rows
sorted by timestamp descending. -/
def sortByTimestampDesc (l : List AuditLog) : List AuditLog :=
  List.insertionSort auditDescOrder l

/-- Character-level model of the `.replace` that doubles each quote. -/
def escQuotes : List Char → List Char
  | [] => []
  | c :: cs => if c = '\"' then '\"' :: '\"' :: escQuotes cs else c :: escQuotes cs

/-- Model of the details escaping `.replace` on strings — the CSV quote-doubling the
source applies to the details field. -/
def csvEscape (s : String) : String := ⟨escQuotes s.data⟩

/-- CSV field parser for one quote-doubled field body: undoubles `""` back
to `"`, rejecting a lone embedded quote. -/
def unescQuotes : List Char → Option (List Char)
  | [] => some []
  | c :: cs =>
    if c = '\"' then
      match cs with
      | c2 :: cs2 => if c2 = '\"' then (unescQuotes cs2).map (fun r => '\"' :: r) else none
      | [] => none
    else (unescQuotes cs).map (fun r => c :: r)

/-- String-level inverse of `csvEscape`. -/
def csvUnescape (s : String) : Option String :=
  (unescQuotes s.data).map (fun l => ⟨l⟩)

/-- Wrapping a CSV field in double quotes, as the row template does for
every field. -/
def quoteWrap (s : String) : String := "\"" ++ s ++ "\""

/-- Model of `Date.toISOString` on a timestamp modelled as epoch milliseconds:
rendered as the decimal number (injective, which is all the export
properties use). -/
def toISOStringModel (n : Nat) : String := toString n

/-- One CSV data row from the template literal of `exportLogs`: every field
is wrapped in quotes, `username`/`role`/`ip` fall back to the empty string,
and ONLY the details field goes through the quote-doubling `.replace`. -/
def csvRow (log : AuditLog) : String :=
  quoteWrap log.id ++ "," ++ quoteWrap log.action ++ ","
    ++ quoteWrap (log.username.getD "") ++ "," ++ quoteWrap (log.role.getD "") ++ ","
    ++ quoteWrap (csvEscape (log.details.getD "")) ++ "," ++ quoteWrap (log.ip.getD "") ++ ","
    ++ quoteWrap (toISOStringModel log.timestamp)

/-- Header line of the CSV export. -/
def csvHeader : String := "id,action,username,role,details,ip,timestamp"

/-- Model of `exportLogs(format)`: query all rows ordered by timestamp descending
(the query may fail — then the catch logs and returns the empty string);
`format === 'csv'` renders header plus one `csvRow` per log joined by
newlines, anything else is the JSON branch, `JSON.stringify(logs, null, 2)`
— the serializer is the external JSON library, taken as a parameter applied
to the sorted structured array. -/
def exportLogs (stringifyJson : List AuditLog → String) (queryOutcome : SaveOutcome)
    (st : AuditState) (format : String) : String :=
  match queryOutcome with
  | .err _ => ""
  | .ok =>
    let logs := sortByTimestampDesc st.stored
    if format == "csv" then
      String.intercalate "\n" (csvHeader :: logs.map csvRow)
    else stringifyJson logs

/-! ## Claim C9 (corrected) -/
/-- Concrete entry whose action — a field other than details — contains an
embedded quote character. -/
def logWithQuotedAction : AuditLog :=
  { id := "7", action := "LINK\"X", username := none, role := none,
    details := some "d", ip := none, timestamp := 9 }

/-- Following the spec's words, for comparison with the source's `csvRow`:
a row in which EVERY field's embedded quotes are escaped by doubling. -/
def csvRowSpecAllFields (log : AuditLog) : String :=
  quoteWrap (csvEscape log.id) ++ "," ++ quoteWrap (csvEscape log.action) ++ ","
    ++ quoteWrap (csvEscape (log.username.getD "")) ++ ","
    ++ quoteWrap (csvEscape (log.role.getD "")) ++ ","
    ++ quoteWrap (csvEscape (log.details.getD "")) ++ ","
    ++ quoteWrap (csvEscape (log.ip.getD "")) ++ ","
    ++ quoteWrap (csvEscape (toISOStringModel log.timestamp))

/-- Concrete requirement with one linked identifier of every kind, used to
exercise a failure of each artifact kind's upstream source. -/
def reqAllKinds : Requirement :=
  { reqR1 with
    userStoryIds := some ["us-1"], taskIds := some ["tk-1"],
    testCaseIds := some ["tc-1"], codeCommitIds := some ["c-1"],
    deploymentIds := some ["d-1"] }

/-- Healthy Jira fetch: every issue id resolves. -/
def issueOk : String → Except String JiraIssue :=
  fun i => .ok ⟨i, "K-" ++ i, "S", none, none⟩

/-- Healthy GitHub fetch: every commit hash resolves. -/
def commitOk : String → Except String GitHubCommit :=
  fun h => .ok ⟨h, "ann", "fix", "2024-01-01", "http://gh/" ++ h⟩

/-- Healthy Jenkins fetch: every build id resolves. -/
def buildOk : String → Except String JenkinsBuild :=
  fun _ => .ok ⟨"SUCCESS", 7⟩

/-- Sources with every upstream system healthy. -/
def srcHealthy : Sources :=
  { jiraBaseUrl := "http://jira", jenkinsBaseUrl := "http://jenkins",
    jobName := "deploy", fetchIssue := issueOk, fetchCommit := commitOk,
    fetchBuild := buildOk }

/-- Sources whose Jira rejects exactly the linked user-story id. -/
def srcStoryFail : Sources :=
  { srcHealthy with
    fetchIssue := fun i => if i == "us-1" then .error "boom" else issueOk i }

/-- Sources whose Jira rejects exactly the linked task id. -/
def srcTaskFail : Sources :=
  { srcHealthy with
    fetchIssue := fun i => if i == "tk-1" then .error "boom" else issueOk i }

/-- Sources whose GitHub client rejects every commit fetch. -/
def srcCommitFail : Sources :=
  { srcHealthy with fetchCommit := fun _ => .error "boom" }

/-- Sources whose Jenkins client rejects every build fetch. -/
def srcBuildFail : Sources :=
  { srcHealthy with fetchBuild := fun _ => .error "boom" }

/-! ## Claim C2 -/
/-- C2. `authorize(None, any)` denies with Unauthenticated; a role whose
permission set contains the wildcard is allowed for every required set
(including tokens enumerated nowhere in the table); for every other role,
the result is Allow iff each required token is in that role's permission
set as listed in the table. -/
theorem authorize_policy_exact (u : User) (required : List String) :
    authorizeDecision none required = .denyUnauthenticated
    ∧ ((permissionsOf u.role).contains "*" = true →
        authorizeDecision (some u) required = .allow)
    ∧ ((permissionsOf u.role).contains "*" = false →
        (authorizeDecision (some u) required = .allow ↔
          ∀ p ∈ required, (permissionsOf u.role).contains p = true)) := by
  refine ⟨rfl, ?_, ?_⟩
  · intro hw
    simp only [authorizeDecision, hw, if_true]
  · intro hw
    by_cases hall : required.all (fun perm => (permissionsOf u.role).contains perm) = true
    · constructor
      · intro _ p hp
        exact List.all_eq_true.mp hall p hp
      · intro _
        simp only [authorizeDecision, hw, hall, Bool.false_eq_true, if_false, if_true]
    · constructor
      · intro hAllow
        exfalso
        simp only [authorizeDecision, hw, hall, Bool.false_eq_true, if_false] at hAllow
        cases hAllow
      · intro h
        exact absurd (List.all_eq_true.mpr h) hall

/-- Witness for C2: admin (wildcard role) is allowed a token that appears
nowhere in the table, and an absent caller is denied as unauthenticated. -/
theorem authorize_policy_exact_witness :
    authorizeDecision none ["view"] = .denyUnauthenticated
    ∧ authorizeDecision (some ⟨"alice", "admin"⟩) ["totally-new-token"] = .allow := by
  refine ⟨(authorize_policy_exact ⟨"alice", "admin"⟩ ["totally-new-token"]).1, ?_⟩
  exact (authorize_policy_exact ⟨"alice", "admin"⟩ ["totally-new-token"]).2.1 (by decide)

/-! ## Claim C10 -/
/-- C10. A role outside the enumerated set does not crash `authorize`: the
lookup falls through to the empty permission set, so any non-empty required
set is denied with insufficient permissions and an empty required set is
allowed (`[].every` is vacuously true). -/
theorem authorize_unknown_role_fallthrough (u : User) (p : String) (ps : List String)
    (h : rolePermissions u.role = none) :
    authorizeDecision (some u) (p :: ps) = .denyInsufficient (p :: ps)
    ∧ authorizeDecision (some u) [] = .allow := by
  constructor
  · simp [authorizeDecision, permissionsOf, h]
  · simp [authorizeDecision, permissionsOf, h]

/-- Witness for C10: the role string "superuser" is in no table entry. -/
theorem authorize_unknown_role_fallthrough_witness :
    authorizeDecision (some ⟨"eve", "superuser"⟩) ["view"] = .denyInsufficient ["view"]
    ∧ authorizeDecision (some ⟨"eve", "superuser"⟩) [] = .allow :=
  authorize_unknown_role_fallthrough ⟨"eve", "superuser"⟩ "view" [] (by decide)

/-- C1 (code bug). The deployed chain for `linkArtifacts` applies only
`authMiddleware`, which admits every authenticated user, so an
authenticated viewer is NOT given Forbidden: the request returns 200, the
requirement is loaded and mutated (us-1 linked, `updatedBy` stamped), a
LINK_ARTIFACTS_TO_REQUIREMENT modification entry is recorded and no
UNAUTHORIZED_ACCESS entry at all — even though the RBAC gate, had it been
consulted with the "link" token, would deny the viewer for exactly that
missing permission. -/
theorem viewer_link_request_succeeds_unchecked :
    (linkEndpoint .ok 100 (some viewerUser) "10.0.0.1"
        "/api/traceability/requirement/r-1/link" "r-1" (some reqR1) linkBodyUs1
        ⟨[], []⟩).http = .ok200
    ∧ (linkEndpoint .ok 100 (some viewerUser) "10.0.0.1"
        "/api/traceability/requirement/r-1/link" "r-1" (some reqR1) linkBodyUs1
        ⟨[], []⟩).saved =
      some { reqR1 with userStoryIds := some ["us-0", "us-1"], updatedBy := some "vera" }
    ∧ ((linkEndpoint .ok 100 (some viewerUser) "10.0.0.1"
        "/api/traceability/requirement/r-1/link" "r-1" (some reqR1) linkBodyUs1
        ⟨[], []⟩).audit.stored.filter (fun e => e.action == "UNAUTHORIZED_ACCESS")).length = 0
    ∧ ((linkEndpoint .ok 100 (some viewerUser) "10.0.0.1"
        "/api/traceability/requirement/r-1/link" "r-1" (some reqR1) linkBodyUs1
        ⟨[], []⟩).audit.stored.filter
          (fun e => e.action == "LINK_ARTIFACTS_TO_REQUIREMENT")).length = 1
    ∧ authorizeDecision (some viewerUser) ["link"] = .denyInsufficient ["link"] := by
  refine ⟨rfl, ?_, rfl, rfl, by decide⟩
  decide

/-! ## Properties of the deduplicating merge -/
/-- Membership in the `Set` walk: an element is kept iff it occurs in the
remaining input and was not already seen. -/
theorem mem_dedupFirstAux (a : String) :
    ∀ (l seen : List String), a ∈ dedupFirstAux seen l ↔ a ∈ l ∧ a ∉ seen := by
  intro l
  induction l with
  | nil => intro seen; simp [dedupFirstAux]
  | cons x xs ih =>
    intro seen
    simp only [dedupFirstAux]
    by_cases hx : x ∈ seen
    · rw [if_pos (List.elem_iff.mpr hx), ih]
      simp only [List.mem_cons]
      constructor
      · rintro ⟨hm, hs⟩; exact ⟨Or.inr hm, hs⟩
      · rintro ⟨h | hm, hs⟩
        · exact absurd (h ▸ hx) hs
        · exact ⟨hm, hs⟩
    · rw [if_neg (by simpa [List.elem_iff] using hx), List.mem_cons, ih]
      simp only [List.mem_append, List.mem_singleton, List.mem_cons]
      by_cases hax : a = x
      · subst hax; simp [hx]
      · simp [hax]

/-- The `Set` walk emits no duplicates. -/
theorem nodup_dedupFirstAux : ∀ (l seen : List String), (dedupFirstAux seen l).Nodup := by
  intro l
  induction l with
  | nil => intro seen; simp [dedupFirstAux]
  | cons x xs ih =>
    intro seen
    simp only [dedupFirstAux]
    by_cases hx : x ∈ seen
    · rw [if_pos (List.elem_iff.mpr hx)]; exact ih seen
    · rw [if_neg (by simpa [List.elem_iff] using hx)]
      refine List.nodup_cons.mpr ⟨?_, ih _⟩
      intro hmem
      exact ((mem_dedupFirstAux x xs _).mp hmem).2 (by simp)

/-- Walking a duplicate-free block none of whose elements were seen yet
copies the block verbatim and then continues with it added to `seen`. -/
theorem dedupFirstAux_append :
    ∀ (l seen ys : List String), l.Nodup → (∀ a ∈ l, a ∉ seen) →
      dedupFirstAux seen (l ++ ys) = l ++ dedupFirstAux (seen ++ l) ys := by
  intro l
  induction l with
  | nil => intro seen ys _ _; simp
  | cons x l' ih =>
    intro seen ys hnd hdis
    have hx : x ∉ seen := hdis x (by simp)
    simp only [List.cons_append, dedupFirstAux]
    rw [if_neg (by simpa [List.elem_iff] using hx)]
    simp only [List.append_eq]
    rw [ih (seen ++ [x]) ys (List.Nodup.of_cons hnd) ?_]
    · simp
    · intro a ha
      simp only [List.mem_append, List.mem_singleton]
      rintro (h | rfl)
      · exact hdis a (by simp [ha]) h
      · exact (List.nodup_cons.mp hnd).1 ha

/-- Walking input that is entirely already seen emits nothing. -/
theorem dedupFirstAux_eq_nil :
    ∀ (ys seen : List String), (∀ a ∈ ys, a ∈ seen) → dedupFirstAux seen ys = [] := by
  intro ys
  induction ys with
  | nil => intro seen _; simp [dedupFirstAux]
  | cons y ys' ih =>
    intro seen h
    simp only [dedupFirstAux]
    rw [if_pos (List.elem_iff.mpr (h y (by simp)))]
    exact ih seen (fun a ha => h a (by simp [ha]))

/-- Membership in the merged list is membership in either side. -/
theorem mem_mergeIds (a : String) (existing : Option (List String)) (incoming : List String) :
    a ∈ mergeIds existing incoming ↔ a ∈ existing.getD [] ∨ a ∈ incoming := by
  simp [mergeIds, dedupFirst, mem_dedupFirstAux, List.mem_append]

/-! ## Claim C5 -/
/-- C5. The per-kind merge of `linkArtifacts` is an ordered-set union:
the stored result is duplicate-free; any identifier submitted (even several
times in one call) ends up with exactly one occurrence; re-linking the same
identifier list is a no-op (idempotent on already-linked identifiers); and
a duplicate-free existing list survives as a prefix of the merge, so the
relative first-occurrence order of existing identifiers is preserved across
repeated merges. -/
theorem link_merge_ordered_set_union (existing incoming : List String) (a : String)
    (hnd : existing.Nodup) :
    (mergeIds (some existing) incoming).Nodup
    ∧ (a ∈ incoming → (mergeIds (some existing) incoming).count a = 1)
    ∧ mergeIds (some (mergeIds (some existing) incoming)) incoming
        = mergeIds (some existing) incoming
    ∧ ∃ t, mergeIds (some existing) incoming = existing ++ t := by
  have hmnd : (mergeIds (some existing) incoming).Nodup := nodup_dedupFirstAux _ []
  refine ⟨hmnd, ?_, ?_, ?_⟩
  · intro ha
    exact List.count_eq_one_of_mem hmnd
      ((mem_mergeIds a (some existing) incoming).mpr (Or.inr ha))
  · show dedupFirstAux [] (mergeIds (some existing) incoming ++ incoming) = _
    rw [dedupFirstAux_append (mergeIds (some existing) incoming) [] incoming hmnd
        (by simp)]
    rw [dedupFirstAux_eq_nil incoming ([] ++ mergeIds (some existing) incoming)
        (fun b hb => by
          simpa using (mem_mergeIds b (some existing) incoming).mpr (Or.inr hb))]
    simp
  · refine ⟨dedupFirstAux existing incoming, ?_⟩
    show dedupFirstAux [] (existing ++ incoming) = _
    rw [dedupFirstAux_append existing [] incoming hnd (by simp)]
    simp

/-- Witness for C5: existing list `["a", "b"]`, submission `["b", "c", "c"]`;
the merge is `["a", "b", "c"]` with exactly one "c". -/
theorem link_merge_ordered_set_union_witness :
    ("c" ∈ (["b", "c", "c"] : List String)
      → (mergeIds (some ["a", "b"]) ["b", "c", "c"]).count "c" = 1)
    ∧ mergeIds (some (mergeIds (some ["a", "b"]) ["b", "c", "c"])) ["b", "c", "c"]
        = mergeIds (some ["a", "b"]) ["b", "c", "c"] :=
  ⟨(link_merge_ordered_set_union ["a", "b"] ["b", "c", "c"] "c" (by decide)).2.1,
   (link_merge_ordered_set_union ["a", "b"] ["b", "c", "c"] "c" (by decide)).2.2.1⟩

/-! ## Claim C6 -/
/-- C6. `updateFlags` is a partial update: supplying only `hasFailedTests`
sets it and leaves `hasDeploymentRollback` at its prior stored value, and
vice versa; every requirement field other than the supplied flag and
`updatedBy` is unchanged. -/
theorem updateFlags_partial_update (r : Requirement) (b : Bool) (user : Option User) :
    (updateFlags r (some b) none user).hasFailedTests = b
    ∧ (updateFlags r (some b) none user).hasDeploymentRollback = r.hasDeploymentRollback
    ∧ (updateFlags r none (some b) user).hasDeploymentRollback = b
    ∧ (updateFlags r none (some b) user).hasFailedTests = r.hasFailedTests
    ∧ (updateFlags r (some b) none user).id = r.id
    ∧ (updateFlags r (some b) none user).title = r.title
    ∧ (updateFlags r (some b) none user).description = r.description
    ∧ (updateFlags r (some b) none user).priority = r.priority
    ∧ (updateFlags r (some b) none user).status = r.status
    ∧ (updateFlags r (some b) none user).userStoryIds = r.userStoryIds
    ∧ (updateFlags r (some b) none user).taskIds = r.taskIds
    ∧ (updateFlags r (some b) none user).testCaseIds = r.testCaseIds
    ∧ (updateFlags r (some b) none user).codeCommitIds = r.codeCommitIds
    ∧ (updateFlags r (some b) none user).deploymentIds = r.deploymentIds
    ∧ (updateFlags r (some b) none user).createdBy = r.createdBy
    ∧ (updateFlags r (some b) none user).updatedBy = some (usernameOrSystem user)
    ∧ (updateFlags r none (some b) user).id = r.id
    ∧ (updateFlags r none (some b) user).title = r.title
    ∧ (updateFlags r none (some b) user).description = r.description
    ∧ (updateFlags r none (some b) user).priority = r.priority
    ∧ (updateFlags r none (some b) user).status = r.status
    ∧ (updateFlags r none (some b) user).userStoryIds = r.userStoryIds
    ∧ (updateFlags r none (some b) user).taskIds = r.taskIds
    ∧ (updateFlags r none (some b) user).testCaseIds = r.testCaseIds
    ∧ (updateFlags r none (some b) user).codeCommitIds = r.codeCommitIds
    ∧ (updateFlags r none (some b) user).deploymentIds = r.deploymentIds
    ∧ (updateFlags r none (some b) user).createdBy = r.createdBy
    ∧ (updateFlags r none (some b) user).updatedBy = some (usernameOrSystem user) := by
  repeat' constructor

/-- When every per-identifier fetch succeeds, the fan-out returns all
normalized results in identifier order. -/
theorem fetchAll_ok_of_forall {α β : Type} (f : α → Except String β) (g : α → β)
    (l : List α) (h : ∀ x ∈ l, f x = .ok (g x)) :
    fetchAll f l = .ok (l.map g) := by
  induction l with
  | nil => rfl
  | cons x xs ih =>
    simp only [fetchAll, h x (by simp), ih (fun y hy => h y (by simp [hy])),
      List.map_cons]

/-- A single rejection anywhere in the fan-out rejects the whole
`Promise.all` aggregate. -/
theorem fetchAll_error_of_mem {α β : Type} (f : α → Except String β)
    {l : List α} {x : α} (hx : x ∈ l) {e : String} (hf : f x = .error e) :
    ∃ m, fetchAll f l = .error m := by
  induction l with
  | nil => cases hx
  | cons y ys ih =>
    rcases List.mem_cons.mp hx with rfl | hmem
    · exact ⟨e, by simp only [fetchAll, hf]⟩
    · match hfy : f y with
      | .error m => exact ⟨m, by simp only [fetchAll, hfy]⟩
      | .ok b =>
        obtain ⟨m, hm⟩ := ih hmem
        exact ⟨m, by simp only [fetchAll, hfy, hm]⟩

/-- C3 counterexample. `generateReport` persists nothing: with the stored
flag false, a first report over upstream data `{t1: failed}` reports
`hasFailedTests = true`, yet a second report over the SAME stored
requirement (no `updateFlags` ran — `/report` never saves) with upstream
data `{t1: passed}` reports `hasFailedTests = false`. A true value that
came only from aggregation is not monotonic. -/
theorem report_failed_flag_not_monotonic :
    (reportRow reqT1 [⟨"t1", "failed", 50⟩] []).hasFailedTests = true
    ∧ (reportRow reqT1 [⟨"t1", "passed", 60⟩] []).hasFailedTests = false
    ∧ reqT1.hasFailedTests = false := by
  decide

/-- C3 as amended. The monotonicity that does hold: once the STORED flag is
true, every `generateReport` row reports the flag true whatever upstream
data is fetched (the OR never clears an explicit flag) — for both
`hasFailedTests` and `hasDeploymentRollback`; and the reported flag is never
below the stored flag. A true produced only by aggregation is not persisted
by `/report` and therefore not sticky. -/
theorem report_flags_monotone_in_stored_flag (r : Requirement)
    (testResults : List TestResult) (deploymentStatus : List DeploymentStatus) :
    (r.hasFailedTests = true →
      (reportRow r testResults deploymentStatus).hasFailedTests = true)
    ∧ (r.hasDeploymentRollback = true →
      (reportRow r testResults deploymentStatus).hasDeploymentRollback = true)
    ∧ (r.hasFailedTests ≤ (reportRow r testResults deploymentStatus).hasFailedTests)
    ∧ (r.hasDeploymentRollback ≤
        (reportRow r testResults deploymentStatus).hasDeploymentRollback) := by
  refine ⟨?_, ?_, ?_, ?_⟩
  · intro h; simp [reportRow, h]
  · intro h; simp [reportRow, h]
  · cases hb : r.hasFailedTests <;> simp [reportRow, hb]
  · cases hb : r.hasDeploymentRollback <;> simp [reportRow, hb]

/-- Witness for C3: a requirement with the stored flag set reports true even
over all-passing upstream data. -/
theorem report_flags_monotone_in_stored_flag_witness :
    (reportRow { reqT1 with hasFailedTests := true } [⟨"t1", "passed", 60⟩] []).hasFailedTests
      = true :=
  (report_flags_monotone_in_stored_flag { reqT1 with hasFailedTests := true }
    [⟨"t1", "passed", 60⟩] []).1 (by decide)

/-- C4 counterexample. An upstream deployment outcome of "ABORTED" is not
the "SUCCESS" token, yet `getDeploymentStatus` does NOT normalize it to
"rollback": the comparison in the source is equality with "FAILURE", and
every other outcome is passed through unchanged. -/
theorem deployment_aborted_not_rollback :
    getDeploymentStatus "http://jenkins" "deploy" abortedFetch ["d1"]
      = [{ id := "d1", status := "ABORTED", timestamp := 5,
           url := "http://jenkins/job/deploy/d1/" }]
    ∧ ("ABORTED" : String) ≠ "SUCCESS"
    ∧ (getDeploymentStatus "http://jenkins" "deploy" abortedFetch ["d1"]).all
        (fun ds => ds.status != "rollback") = true := by
  refine ⟨by decide, by decide, by decide⟩

/-- C4 as amended. The deployment-status query normalizes an upstream
outcome to "rollback" exactly when it equals the literal "FAILURE" token
(any other outcome — including non-success ones such as ABORTED or
UNSTABLE — is passed through unchanged); and in the report a fetched
build/test outcome of "failed" sets that requirement's failed indicator. -/
theorem deployment_status_normalization (jenkinsBaseUrl jobName id : String)
    (b : JenkinsBuild) (fetchBuild : String → Except String JenkinsBuild)
    (ids : List String) (builds : String → JenkinsBuild)
    (hfetch : ∀ i ∈ ids, fetchBuild i = .ok (builds i))
    (r : Requirement) (testResults : List TestResult) (tr : TestResult)
    (htr : tr ∈ testResults) (hfail : tr.status = "failed")
    (deploymentStatus : List DeploymentStatus) :
    (b.result = "FAILURE" →
      (deploymentStatusOf jenkinsBaseUrl jobName id b).status = "rollback")
    ∧ (b.result ≠ "FAILURE" →
      (deploymentStatusOf jenkinsBaseUrl jobName id b).status = b.result)
    ∧ getDeploymentStatus jenkinsBaseUrl jobName fetchBuild ids
        = ids.map (fun i => deploymentStatusOf jenkinsBaseUrl jobName i (builds i))
    ∧ (reportRow r testResults deploymentStatus).hasFailedTests = true := by
  refine ⟨?_, ?_, ?_, ?_⟩
  · intro h; simp [deploymentStatusOf, h]
  · intro h; simp [deploymentStatusOf, h]
  · have hall := fetchAll_ok_of_forall
      (fun i => match fetchBuild i with
        | .error e => .error e
        | .ok b => .ok (deploymentStatusOf jenkinsBaseUrl jobName i b))
      (fun i => deploymentStatusOf jenkinsBaseUrl jobName i (builds i)) ids
      (fun i hi => by simp only [hfetch i hi])
    cases hids : ids.isEmpty
    · simp only [getDeploymentStatus, hids, Bool.false_eq_true, if_false, hall]
    · have : ids = [] := List.isEmpty_iff.mp hids
      subst this; rfl
  · have : testResults.any (fun x => x.status == "failed") = true :=
      List.any_eq_true.mpr ⟨tr, htr, by simp [hfail]⟩
    simp [reportRow, this]

/-- Witness for C4: two identifiers, one FAILURE build (normalized to
rollback) and one SUCCESS build (passed through), plus a failed test result
setting the report's indicator. -/
theorem deployment_status_normalization_witness :
    (deploymentStatusOf "http://jenkins" "deploy" "d1" ⟨"FAILURE", 3⟩).status = "rollback"
    ∧ (deploymentStatusOf "http://jenkins" "deploy" "d2" ⟨"SUCCESS", 4⟩).status = "SUCCESS"
    ∧ (reportRow reqT1 [⟨"t1", "failed", 50⟩] []).hasFailedTests = true := by
  have h1 := deployment_status_normalization "http://jenkins" "deploy" "d1" ⟨"FAILURE", 3⟩
    (fun _ => .ok ⟨"FAILURE", 3⟩) [] (fun _ => ⟨"FAILURE", 3⟩) (by simp)
    reqT1 [⟨"t1", "failed", 50⟩] ⟨"t1", "failed", 50⟩ (by simp) rfl []
  have h2 := deployment_status_normalization "http://jenkins" "deploy" "d2" ⟨"SUCCESS", 4⟩
    (fun _ => .ok ⟨"SUCCESS", 4⟩) [] (fun _ => ⟨"SUCCESS", 4⟩) (by simp)
    reqT1 [⟨"t1", "failed", 50⟩] ⟨"t1", "failed", 50⟩ (by simp) rfl []
  exact ⟨h1.1 rfl, h2.2.1 (by decide), h1.2.2.2⟩

/-- Two fetch functions that agree on a list produce the same fan-out. -/
theorem fetchAll_congr {α β : Type} (f g : α → Except String β) :
    ∀ (l : List α), (∀ x ∈ l, f x = g x) → fetchAll f l = fetchAll g l := by
  intro l
  induction l with
  | nil => intro _; rfl
  | cons x xs ih =>
    intro h
    simp only [fetchAll, h x (by simp), ih (fun y hy => h y (by simp [hy]))]

/-- A failing identifier anywhere in `getUserStories`'s fan-out yields the
empty list and the logged error. -/
theorem getUserStories_fail (jiraBaseUrl : String)
    (fetchIssue : String → Except String JiraIssue) (ids : List String)
    (sid e : String) (hsid : sid ∈ ids) (hfail : fetchIssue sid = .error e) :
    getUserStories jiraBaseUrl fetchIssue ids
      = ([], ["error: IntegrationService.getUserStories error"]) := by
  have hne : ids.isEmpty = false := by
    cases ids with
    | nil => cases hsid
    | cons a as => rfl
  obtain ⟨m, hm⟩ := fetchAll_error_of_mem
    (fun id => match fetchIssue id with
      | .error e => .error e
      | .ok iss => .ok (normalizeIssue jiraBaseUrl iss)) hsid
    (e := e) (by simp only [hfail])
  simp only [getUserStories, hne, Bool.false_eq_true, if_false, hm]

/-- A failing identifier anywhere in `getTasks`'s fan-out yields the empty
list and the logged error. -/
theorem getTasks_fail (jiraBaseUrl : String)
    (fetchIssue : String → Except String JiraIssue) (ids : List String)
    (tid e : String) (htid : tid ∈ ids) (hfail : fetchIssue tid = .error e) :
    getTasks jiraBaseUrl fetchIssue ids
      = ([], ["error: IntegrationService.getTasks error"]) := by
  have hne : ids.isEmpty = false := by
    cases ids with
    | nil => cases htid
    | cons a as => rfl
  obtain ⟨m, hm⟩ := fetchAll_error_of_mem
    (fun id => match fetchIssue id with
      | .error e => .error e
      | .ok iss => .ok (normalizeIssue jiraBaseUrl iss)) htid
    (e := e) (by simp only [hfail])
  simp only [getTasks, hne, Bool.false_eq_true, if_false, hm]

/-- A failing hash anywhere in `getCodeCommits`'s fan-out yields the empty
list and the logged error. -/
theorem getCodeCommits_fail (fetchCommit : String → Except String GitHubCommit)
    (hashes : List String) (cid e : String) (hcid : cid ∈ hashes)
    (hfail : fetchCommit cid = .error e) :
    getCodeCommits fetchCommit hashes
      = ([], ["error: IntegrationService.getCodeCommits error"]) := by
  have hne : hashes.isEmpty = false := by
    cases hashes with
    | nil => cases hcid
    | cons a as => rfl
  obtain ⟨m, hm⟩ := fetchAll_error_of_mem
    (fun hsh => match fetchCommit hsh with
      | .error e => .error e
      | .ok c => .ok { sha := c.sha, author := c.authorName, message := c.message,
                       date := c.date, url := c.htmlUrl : CommitArtifact }) hcid
    (e := e) (by simp only [hfail])
  simp only [getCodeCommits, hne, Bool.false_eq_true, if_false, hm]

/-- A failing build id anywhere in `getDeployments`'s fan-out yields the
empty list and the logged error. -/
theorem getDeployments_fail (jenkinsBaseUrl jobName : String)
    (fetchBuild : String → Except String JenkinsBuild) (ids : List String)
    (did e : String) (hdid : did ∈ ids) (hfail : fetchBuild did = .error e) :
    getDeployments jenkinsBaseUrl jobName fetchBuild ids
      = ([], ["error: IntegrationService.getDeployments error"]) := by
  have hne : ids.isEmpty = false := by
    cases ids with
    | nil => cases hdid
    | cons a as => rfl
  obtain ⟨m, hm⟩ := fetchAll_error_of_mem
    (fun id => match fetchBuild id with
      | .error e => .error e
      | .ok b => .ok { id := id, status := b.result, timestamp := b.timestamp,
                       url := jenkinsBaseUrl ++ "/job/" ++ jobName ++ "/" ++ id ++ "/"
                       : DeploymentStatus }) hdid
    (e := e) (by simp only [hfail])
  simp only [getDeployments, hne, Bool.false_eq_true, if_false, hm]

/-- Two Jira fetch behaviors that agree on the queried ids give the same
`getUserStories` result. -/
theorem getUserStories_congr (jiraBaseUrl : String)
    (f g : String → Except String JiraIssue) (ids : List String)
    (h : ∀ i ∈ ids, f i = g i) :
    getUserStories jiraBaseUrl f ids = getUserStories jiraBaseUrl g ids := by
  cases hne : ids.isEmpty
  · have hcongr := fetchAll_congr
      (fun id => match f id with
        | .error e => .error e
        | .ok iss => .ok (normalizeIssue jiraBaseUrl iss))
      (fun id => match g id with
        | .error e => .error e
        | .ok iss => .ok (normalizeIssue jiraBaseUrl iss)) ids
      (fun i hi => by simp only [h i hi])
    simp only [getUserStories, hne, Bool.false_eq_true, if_false, hcongr]
  · simp [getUserStories, hne]

/-- Two Jira fetch behaviors that agree on the queried ids give the same
`getTasks` result. -/
theorem getTasks_congr (jiraBaseUrl : String)
    (f g : String → Except String JiraIssue) (ids : List String)
    (h : ∀ i ∈ ids, f i = g i) :
    getTasks jiraBaseUrl f ids = getTasks jiraBaseUrl g ids := by
  cases hne : ids.isEmpty
  · have hcongr := fetchAll_congr
      (fun id => match f id with
        | .error e => .error e
        | .ok iss => .ok (normalizeIssue jiraBaseUrl iss))
      (fun id => match g id with
        | .error e => .error e
        | .ok iss => .ok (normalizeIssue jiraBaseUrl iss)) ids
      (fun i hi => by simp only [h i hi])
    simp only [getTasks, hne, Bool.false_eq_true, if_false, hcongr]
  · simp [getTasks, hne]

/-- Failure of the user-story kind: the Jira fetch of one linked user story
rejecting empties exactly the story list, logs, and leaves the other four
kinds unaffected (any Jira behavior agreeing on the task ids, and the same
commit/build fetchers, give identical other lists). -/
theorem enrich_story_fetch_fail (s : Sources) (r : Requirement)
    (sid e : String) (hsid : sid ∈ r.userStoryIds.getD [])
    (hfail : s.fetchIssue sid = .error e)
    (f2 : String → Except String JiraIssue)
    (hagree : ∀ i ∈ r.taskIds.getD [], f2 i = s.fetchIssue i) :
    (enrichRequirement s r).userStories = []
    ∧ "error: IntegrationService.getUserStories error" ∈ (enrichRequirement s r).diag
    ∧ (enrichRequirement { s with fetchIssue := f2 } r).tasks = (enrichRequirement s r).tasks
    ∧ (enrichRequirement { s with fetchIssue := f2 } r).testCases
        = (enrichRequirement s r).testCases
    ∧ (enrichRequirement { s with fetchIssue := f2 } r).codeCommits
        = (enrichRequirement s r).codeCommits
    ∧ (enrichRequirement { s with fetchIssue := f2 } r).deployments
        = (enrichRequirement s r).deployments := by
  obtain ⟨ids, hids⟩ : ∃ ids, r.userStoryIds = some ids := by
    cases h : r.userStoryIds with
    | none => rw [h] at hsid; cases hsid
    | some ids => exact ⟨ids, rfl⟩
  rw [hids] at hsid
  simp only [Option.getD_some] at hsid
  have hne : ids.isEmpty = false := by
    cases ids with
    | nil => cases hsid
    | cons a as => rfl
  have hus := getUserStories_fail s.jiraBaseUrl s.fetchIssue ids sid e hsid hfail
  have htasks : (match r.taskIds with
      | some tids => if tids.isEmpty then (([], []) : List StoryArtifact × List String)
                     else getTasks s.jiraBaseUrl f2 tids
      | none => ([], []))
      = (match r.taskIds with
      | some tids => if tids.isEmpty then ([], [])
                     else getTasks s.jiraBaseUrl s.fetchIssue tids
      | none => ([], [])) := by
    cases ht : r.taskIds with
    | none => rfl
    | some tids =>
      cases htne : tids.isEmpty
      · have hcongr := getTasks_congr s.jiraBaseUrl f2 s.fetchIssue tids
          (fun i hi => hagree i (by rw [ht]; simpa using hi))
        simp only [htne, Bool.false_eq_true, if_false, hcongr]
      · simp [htne]
  refine ⟨?_, ?_, ?_, rfl, rfl, rfl⟩
  · simp only [enrichRequirement, hids, hne, Bool.false_eq_true, if_false, hus]
  · simp only [enrichRequirement, hids, hne, Bool.false_eq_true, if_false, hus]
    simp
  · simp only [enrichRequirement]
    rw [htasks]

/-- Failure of the task kind: symmetric to the user-story case, with the
agreement hypothesis on the user-story ids. -/
theorem enrich_task_fetch_fail (s : Sources) (r : Requirement)
    (tid e : String) (htid : tid ∈ r.taskIds.getD [])
    (hfail : s.fetchIssue tid = .error e)
    (f2 : String → Except String JiraIssue)
    (hagree : ∀ i ∈ r.userStoryIds.getD [], f2 i = s.fetchIssue i) :
    (enrichRequirement s r).tasks = []
    ∧ "error: IntegrationService.getTasks error" ∈ (enrichRequirement s r).diag
    ∧ (enrichRequirement { s with fetchIssue := f2 } r).userStories
        = (enrichRequirement s r).userStories
    ∧ (enrichRequirement { s with fetchIssue := f2 } r).testCases
        = (enrichRequirement s r).testCases
    ∧ (enrichRequirement { s with fetchIssue := f2 } r).codeCommits
        = (enrichRequirement s r).codeCommits
    ∧ (enrichRequirement { s with fetchIssue := f2 } r).deployments
        = (enrichRequirement s r).deployments := by
  obtain ⟨tids, hids⟩ : ∃ tids, r.taskIds = some tids := by
    cases h : r.taskIds with
    | none => rw [h] at htid; cases htid
    | some tids => exact ⟨tids, rfl⟩
  rw [hids] at htid
  simp only [Option.getD_some] at htid
  have hne : tids.isEmpty = false := by
    cases tids with
    | nil => cases htid
    | cons a as => rfl
  have htk := getTasks_fail s.jiraBaseUrl s.fetchIssue tids tid e htid hfail
  have hstories : (match r.userStoryIds with
      | some uids => if uids.isEmpty then (([], []) : List StoryArtifact × List String)
                     else getUserStories s.jiraBaseUrl f2 uids
      | none => ([], []))
      = (match r.userStoryIds with
      | some uids => if uids.isEmpty then ([], [])
                     else getUserStories s.jiraBaseUrl s.fetchIssue uids
      | none => ([], [])) := by
    cases hu : r.userStoryIds with
    | none => rfl
    | some uids =>
      cases hune : uids.isEmpty
      · have hcongr := getUserStories_congr s.jiraBaseUrl f2 s.fetchIssue uids
          (fun i hi => hagree i (by rw [hu]; simpa using hi))
        simp only [hune, Bool.false_eq_true, if_false, hcongr]
      · simp [hune]
  refine ⟨?_, ?_, ?_, rfl, rfl, rfl⟩
  · simp only [enrichRequirement, hids, hne, Bool.false_eq_true, if_false, htk]
  · simp only [enrichRequirement, hids, hne, Bool.false_eq_true, if_false, htk]
    simp
  · simp only [enrichRequirement]
    rw [hstories]

/-- Failure of the commit kind: empties exactly the commit list and logs;
no other kind reads the GitHub fetcher, so the other four lists are
unchanged under any replacement of it. -/
theorem enrich_commit_fetch_fail (s : Sources) (r : Requirement)
    (cid e : String) (hcid : cid ∈ r.codeCommitIds.getD [])
    (hfail : s.fetchCommit cid = .error e)
    (g2 : String → Except String GitHubCommit) :
    (enrichRequirement s r).codeCommits = []
    ∧ "error: IntegrationService.getCodeCommits error" ∈ (enrichRequirement s r).diag
    ∧ (enrichRequirement { s with fetchCommit := g2 } r).userStories
        = (enrichRequirement s r).userStories
    ∧ (enrichRequirement { s with fetchCommit := g2 } r).tasks
        = (enrichRequirement s r).tasks
    ∧ (enrichRequirement { s with fetchCommit := g2 } r).testCases
        = (enrichRequirement s r).testCases
    ∧ (enrichRequirement { s with fetchCommit := g2 } r).deployments
        = (enrichRequirement s r).deployments := by
  obtain ⟨cids, hids⟩ : ∃ cids, r.codeCommitIds = some cids := by
    cases h : r.codeCommitIds with
    | none => rw [h] at hcid; cases hcid
    | some cids => exact ⟨cids, rfl⟩
  rw [hids] at hcid
  simp only [Option.getD_some] at hcid
  have hne : cids.isEmpty = false := by
    cases cids with
    | nil => cases hcid
    | cons a as => rfl
  have hcc := getCodeCommits_fail s.fetchCommit cids cid e hcid hfail
  refine ⟨?_, ?_, rfl, rfl, rfl, rfl⟩
  · simp only [enrichRequirement, hids, hne, Bool.false_eq_true, if_false, hcc]
  · simp only [enrichRequirement, hids, hne, Bool.false_eq_true, if_false, hcc]
    simp

/-- Failure of the deployment kind: empties exactly the deployment list and
logs; no other kind reads the Jenkins fetcher, so the other four lists are
unchanged under any replacement of it. -/
theorem enrich_deployment_fetch_fail (s : Sources) (r : Requirement)
    (did e : String) (hdid : did ∈ r.deploymentIds.getD [])
    (hfail : s.fetchBuild did = .error e)
    (b2 : String → Except String JenkinsBuild) :
    (enrichRequirement s r).deployments = []
    ∧ "error: IntegrationService.getDeployments error" ∈ (enrichRequirement s r).diag
    ∧ (enrichRequirement { s with fetchBuild := b2 } r).userStories
        = (enrichRequirement s r).userStories
    ∧ (enrichRequirement { s with fetchBuild := b2 } r).tasks
        = (enrichRequirement s r).tasks
    ∧ (enrichRequirement { s with fetchBuild := b2 } r).testCases
        = (enrichRequirement s r).testCases
    ∧ (enrichRequirement { s with fetchBuild := b2 } r).codeCommits
        = (enrichRequirement s r).codeCommits := by
  obtain ⟨dids, hids⟩ : ∃ dids, r.deploymentIds = some dids := by
    cases h : r.deploymentIds with
    | none => rw [h] at hdid; cases hdid
    | some dids => exact ⟨dids, rfl⟩
  rw [hids] at hdid
  simp only [Option.getD_some] at hdid
  have hne : dids.isEmpty = false := by
    cases dids with
    | nil => cases hdid
    | cons a as => rfl
  have hdp := getDeployments_fail s.jenkinsBaseUrl s.jobName s.fetchBuild dids did e hdid hfail
  refine ⟨?_, ?_, rfl, rfl, rfl, rfl⟩
  · simp only [enrichRequirement, hids, hne, Bool.false_eq_true, if_false, hdp]
  · simp only [enrichRequirement, hids, hne, Bool.false_eq_true, if_false, hdp]
    simp

/-! ## Claim C7 -/
/-- C7. Whatever artifact kind's upstream source fails anywhere in its
fan-out — a Jira rejection on a linked user story or task, a GitHub
rejection on a linked commit, or a Jenkins rejection on a linked deployment
(the test-case getter performs no outbound call and cannot fail) — the
enriched requirement carries the empty list for exactly that kind, never a
partial list; the failure is logged to diagnostics and never surfaced (the
aggregation is total and still returns a value); and the lists of the other
four kinds of the same requirement are unaffected by that failure: any
upstream behavior agreeing on the identifiers the other kinds actually
query produces identical lists for them. -/
theorem enrich_upstream_failure_isolated (s : Sources) (r : Requirement)
    (xid e : String) (f2 : String → Except String JiraIssue)
    (g2 : String → Except String GitHubCommit)
    (b2 : String → Except String JenkinsBuild) :
    (xid ∈ r.userStoryIds.getD [] → s.fetchIssue xid = .error e →
      (∀ i ∈ r.taskIds.getD [], f2 i = s.fetchIssue i) →
      (enrichRequirement s r).userStories = []
      ∧ "error: IntegrationService.getUserStories error" ∈ (enrichRequirement s r).diag
      ∧ (enrichRequirement { s with fetchIssue := f2 } r).tasks
          = (enrichRequirement s r).tasks
      ∧ (enrichRequirement { s with fetchIssue := f2 } r).testCases
          = (enrichRequirement s r).testCases
      ∧ (enrichRequirement { s with fetchIssue := f2 } r).codeCommits
          = (enrichRequirement s r).codeCommits
      ∧ (enrichRequirement { s with fetchIssue := f2 } r).deployments
          = (enrichRequirement s r).deployments)
    ∧ (xid ∈ r.taskIds.getD [] → s.fetchIssue xid = .error e →
      (∀ i ∈ r.userStoryIds.getD [], f2 i = s.fetchIssue i) →
      (enrichRequirement s r).tasks = []
      ∧ "error: IntegrationService.getTasks error" ∈ (enrichRequirement s r).diag
      ∧ (enrichRequirement { s with fetchIssue := f2 } r).userStories
          = (enrichRequirement s r).userStories
      ∧ (enrichRequirement { s with fetchIssue := f2 } r).testCases
          = (enrichRequirement s r).testCases
      ∧ (enrichRequirement { s with fetchIssue := f2 } r).codeCommits
          = (enrichRequirement s r).codeCommits
      ∧ (enrichRequirement { s with fetchIssue := f2 } r).deployments
          = (enrichRequirement s r).deployments)
    ∧ (xid ∈ r.codeCommitIds.getD [] → s.fetchCommit xid = .error e →
      (enrichRequirement s r).codeCommits = []
      ∧ "error: IntegrationService.getCodeCommits error" ∈ (enrichRequirement s r).diag
      ∧ (enrichRequirement { s with fetchCommit := g2 } r).userStories
          = (enrichRequirement s r).userStories
      ∧ (enrichRequirement { s with fetchCommit := g2 } r).tasks
          = (enrichRequirement s r).tasks
      ∧ (enrichRequirement { s with fetchCommit := g2 } r).testCases
          = (enrichRequirement s r).testCases
      ∧ (enrichRequirement { s with fetchCommit := g2 } r).deployments
          = (enrichRequirement s r).deployments)
    ∧ (xid ∈ r.deploymentIds.getD [] → s.fetchBuild xid = .error e →
      (enrichRequirement s r).deployments = []
      ∧ "error: IntegrationService.getDeployments error" ∈ (enrichRequirement s r).diag
      ∧ (enrichRequirement { s with fetchBuild := b2 } r).userStories
          = (enrichRequirement s r).userStories
      ∧ (enrichRequirement { s with fetchBuild := b2 } r).tasks
          = (enrichRequirement s r).tasks
      ∧ (enrichRequirement { s with fetchBuild := b2 } r).testCases
          = (enrichRequirement s r).testCases
      ∧ (enrichRequirement { s with fetchBuild := b2 } r).codeCommits
          = (enrichRequirement s r).codeCommits) := by
  refine ⟨?_, ?_, ?_, ?_⟩
  · intro h1 h2 h3
    exact enrich_story_fetch_fail s r xid e h1 h2 f2 h3
  · intro h1 h2 h3
    exact enrich_task_fetch_fail s r xid e h1 h2 f2 h3
  · intro h1 h2
    exact enrich_commit_fetch_fail s r xid e h1 h2 g2
  · intro h1 h2
    exact enrich_deployment_fetch_fail s r xid e h1 h2 b2

/-- Witness for C7, exercising all four fallible kinds on a requirement
linked to one identifier of every kind: the failing kind's list is empty in
each case, and for the Jira-story failure the task list matches the one
obtained under a fully healthy Jira. -/
theorem enrich_upstream_failure_isolated_witness :
    (enrichRequirement srcStoryFail reqAllKinds).userStories = []
    ∧ (enrichRequirement { srcStoryFail with fetchIssue := issueOk } reqAllKinds).tasks
        = (enrichRequirement srcStoryFail reqAllKinds).tasks
    ∧ (enrichRequirement srcTaskFail reqAllKinds).tasks = []
    ∧ (enrichRequirement srcCommitFail reqAllKinds).codeCommits = []
    ∧ (enrichRequirement srcBuildFail reqAllKinds).deployments = [] := by
  have h1 := enrich_upstream_failure_isolated srcStoryFail reqAllKinds "us-1" "boom"
    issueOk commitOk buildOk
  have h2 := enrich_upstream_failure_isolated srcTaskFail reqAllKinds "tk-1" "boom"
    issueOk commitOk buildOk
  have h3 := enrich_upstream_failure_isolated srcCommitFail reqAllKinds "c-1" "boom"
    issueOk commitOk buildOk
  have h4 := enrich_upstream_failure_isolated srcBuildFail reqAllKinds "d-1" "boom"
    issueOk commitOk buildOk
  have hstory := h1.1 (by decide) rfl
    (fun i hi => by
      have hi2 : i ∈ ["tk-1"] := hi
      simp only [List.mem_singleton] at hi2
      subst hi2
      rfl)
  have htask := h2.2.1 (by decide) rfl
    (fun i hi => by
      have hi2 : i ∈ ["us-1"] := hi
      simp only [List.mem_singleton] at hi2
      subst hi2
      rfl)
  have hcommit := h3.2.2.1 (by decide) rfl
  have hdeploy := h4.2.2.2 (by decide) rfl
  exact ⟨hstory.1, hstory.2.2.1, htask.1, hcommit.1, hdeploy.1⟩

/-! ## Claim C8 -/
/-- C8. Audit recording is fail-open: when the durable write fails, each of
the three record operations leaves the durable store untouched, appends
exactly one diagnostic line, and returns normally (totality of the model —
the source catch swallows the rejection), so the primary operation is
unaffected: the link endpoint's HTTP result and persisted record are the
same whether the audit write fails or succeeds; and a failing export query
returns the empty string for every format instead of raising. -/
theorem audit_recording_fail_open (m : String) (now : Nat) (user : Option User)
    (action : String) (details ip : Option String) (st : AuditState)
    (ipStr url : String) (stringifyJson : List AuditLog → String) (format : String)
    (reqId : String) (reqmt : Option Requirement) (body : LinkBody) :
    (logAccess (.err m) now user action details ip st).stored = st.stored
    ∧ (logAccess (.err m) now user action details ip st).diag
        = st.diag ++ ["error: AuditLogService.logAccess error"]
    ∧ (logModification (.err m) now user action details ip st).stored = st.stored
    ∧ (logModification (.err m) now user action details ip st).diag
        = st.diag ++ ["error: AuditLogService.logModification error"]
    ∧ (logUnauthorizedAccess (.err m) now ipStr url (user.map User.username)
        (user.map User.role) st).stored = st.stored
    ∧ (logUnauthorizedAccess (.err m) now ipStr url (user.map User.username)
        (user.map User.role) st).diag
        = st.diag ++ ["error: AuditLogService.logUnauthorizedAccess error"]
    ∧ exportLogs stringifyJson (.err m) st format = ""
    ∧ (linkEndpoint (.err m) now user ipStr url reqId reqmt body st).http
        = (linkEndpoint .ok now user ipStr url reqId reqmt body st).http
    ∧ (linkEndpoint (.err m) now user ipStr url reqId reqmt body st).saved
        = (linkEndpoint .ok now user ipStr url reqId reqmt body st).saved := by
  refine ⟨rfl, rfl, rfl, rfl, rfl, rfl, rfl, ?_, ?_⟩
  · cases user <;> cases reqmt <;> rfl
  · cases user <;> cases reqmt <;> rfl

/-- C9 counterexample. The source's CSV row doubles quotes only in the
details field: for an entry whose action contains a quote, the emitted row
differs from the all-fields-escaped row the claim describes — the quote
inside the action field is left undoubled (an unparsable bare quote inside
a quoted field). -/
theorem csv_row_leaves_non_details_quotes_unescaped :
    csvRow logWithQuotedAction ≠ csvRowSpecAllFields logWithQuotedAction
    ∧ csvRow logWithQuotedAction
        = "\"7\",\"LINK\"X\",\"\",\"\",\"d\",\"\",\"9\"" := by
  constructor
  · decide
  · rfl

/-- C9 as amended. Export returns the stored entries ordered by timestamp
descending (same entries, sorted); the JSON branch is the serialization of
exactly that sorted array; in the CSV branch every one of the seven fields
is wrapped in quotes, but only the details field is quote-doubled — a
details value containing quotes round-trips through the escaping, while
the other fields are emitted verbatim inside their quotes. -/
theorem export_order_and_csv_escaping (st : AuditState) (a log : AuditLog)
    (d : String) (stringifyJson : List AuditLog → String) :
    (a ∈ st.stored ↔ a ∈ sortByTimestampDesc st.stored)
    ∧ List.Sorted auditDescOrder (sortByTimestampDesc st.stored)
    ∧ exportLogs stringifyJson .ok st "json" = stringifyJson (sortByTimestampDesc st.stored)
    ∧ exportLogs stringifyJson .ok st "csv"
        = String.intercalate "\n" (csvHeader :: (sortByTimestampDesc st.stored).map csvRow)
    ∧ csvRow log
        = quoteWrap log.id ++ "," ++ quoteWrap log.action ++ ","
          ++ quoteWrap (log.username.getD "") ++ "," ++ quoteWrap (log.role.getD "") ++ ","
          ++ quoteWrap (csvEscape (log.details.getD "")) ++ ","
          ++ quoteWrap (log.ip.getD "") ++ ","
          ++ quoteWrap (toISOStringModel log.timestamp)
    ∧ csvUnescape (csvEscape d) = some d := by
  refine ⟨((List.perm_insertionSort auditDescOrder st.stored).mem_iff).symm,
    List.sorted_insertionSort auditDescOrder st.stored, rfl, rfl, rfl, ?_⟩
  show (unescQuotes (escQuotes d.data)).map (fun l => String.mk l) = some d
  have h : ∀ cs : List Char, unescQuotes (escQuotes cs) = some cs := by
    intro cs
    induction cs with
    | nil => rfl
    | cons c cs ih =>
      by_cases hc : c = '\"'
      · subst hc
        simp [escQuotes, unescQuotes, ih]
      · simp only [escQuotes, if_neg hc]
        unfold unescQuotes
        rw [if_neg hc, ih]
        rfl
  rw [h d.data]
  rfl
